import Mathlib

/-!
Verification development for the Senpilot customer-service backend:
a shallow embedding of the call-session store
(`apps/backend/src/services/session` module: `connectRedis`, `getRedisAsync`,
`createSession`, `getSession`, `updateSession`, `deleteSession`,
`appendTranscript`), of the analytics read path
(`apps/backend/src/services/analytics/analyticsService.ts`: `getCallMetrics`),
and of the switch coordinator used by
`apps/backend/src/controllers/switchController.ts`.

Conventions of the embedding:
* JavaScript `Map<string, V>` objects become association lists
  `List (String × V)`; `Map.set` replaces the binding for the key,
  `Map.get` returns the most recent binding, `Map.delete` removes it.
* Wall-clock instants (`Date.now()`, expiry stamps) are naturals counting
  milliseconds; they are passed explicitly to each operation.
* `JSON.stringify` / `JSON.parse` are modelled at the level of the JSON
  value tree: `encodeSession` is the serializer, `decodeSession` its
  inverse on serialized sessions (all data this module ever parses was
  produced by its own `JSON.stringify`, so parsing is modelled as the
  decoder of that image; a value that does not decode corresponds to a
  parse/shape failure and yields `none`, as the `catch` branch returns
  `null`).
* Promise-returning functions become pure state transformers on
  `StoreState`; a function that cannot throw is a total function.
  The external Redis server is part of the state: `redisUp` says whether
  a fresh connection attempt would succeed, `connected` models
  `redis !== null && redis.status === 'ready'`, `readFault` injects a
  rejection of the next primary `GET` (the only primary operation the
  source wraps in `try/catch`), and `redis` holds the primary key space
  with absolute expiry instants (SETEX expiry is enforced by the server,
  modelled at read time).
-/

/-- Transcript speaker tag, from the union type `'AI' | 'HUMAN' | 'CUSTOMER'`. -/
inductive Speaker where
  | AI
  | HUMAN
  | CUSTOMER
deriving DecidableEq

/-- Call lifecycle status, from the `CallStatus` enum of the database schema. -/
inductive CallStatus where
  | RINGING
  | ACTIVE
  | ON_HOLD
  | ENDED
deriving DecidableEq

/-- Operator mode, from the `CallMode` enum of the database schema. -/
inductive CallMode where
  | AI_AGENT
  | HUMAN_REP
deriving DecidableEq

/-- One transcript line, `{ speaker, text, timestamp }` as appended by
`appendTranscript`. -/
structure TranscriptEntry where
  speaker : Speaker
  text : String
  timestamp : Nat
deriving DecidableEq

/-- The canonical `CallSession` record of the `shared-types` package, per the
data model of the spec (sec. 3). -/
structure CallSession where
  callId : String
  status : CallStatus
  mode : CallMode
  customerId : Option String
  transcript : List TranscriptEntry
  switchCount : Nat
  startTime : Nat
  endTime : Option Nat
deriving DecidableEq

/-- JSON value trees, the codomain of `JSON.stringify` on session records.
Numbers are modelled as naturals because the session payload only carries
timestamps and counters. -/
inductive Json where
  | null
  | str (s : String)
  | num (n : Nat)
  | arr (elems : List Json)
  | obj (fields : List (String × Json))

/-- Serialization of the status enum (JSON stores enum values as strings). -/
def statusToString : CallStatus → String
  | .RINGING => "RINGING"
  | .ACTIVE => "ACTIVE"
  | .ON_HOLD => "ON_HOLD"
  | .ENDED => "ENDED"

/-- Inverse of `statusToString`. -/
def statusOfString (s : String) : Option CallStatus :=
  if s = "RINGING" then some .RINGING
  else if s = "ACTIVE" then some .ACTIVE
  else if s = "ON_HOLD" then some .ON_HOLD
  else if s = "ENDED" then some .ENDED
  else none

/-- Serialization of the mode enum. -/
def modeToString : CallMode → String
  | .AI_AGENT => "AI_AGENT"
  | .HUMAN_REP => "HUMAN_REP"

/-- Inverse of `modeToString`. -/
def modeOfString (s : String) : Option CallMode :=
  if s = "AI_AGENT" then some .AI_AGENT
  else if s = "HUMAN_REP" then some .HUMAN_REP
  else none

/-- Serialization of the speaker tag. -/
def speakerToString : Speaker → String
  | .AI => "AI"
  | .HUMAN => "HUMAN"
  | .CUSTOMER => "CUSTOMER"

/-- Inverse of `speakerToString`. -/
def speakerOfString (s : String) : Option Speaker :=
  if s = "AI" then some .AI
  else if s = "HUMAN" then some .HUMAN
  else if s = "CUSTOMER" then some .CUSTOMER
  else none

/-- Serialize an optional string field (`null` for an absent value). -/
def encodeOptStr : Option String → Json
  | none => .null
  | some s => .str s

/-- Inverse of `encodeOptStr`. -/
def decodeOptStr : Json → Option (Option String)
  | .null => some none
  | .str s => some (some s)
  | _ => none

/-- Serialize an optional number field (`null` for an absent value). -/
def encodeOptNum : Option Nat → Json
  | none => .null
  | some n => .num n

/-- Inverse of `encodeOptNum`. -/
def decodeOptNum : Json → Option (Option Nat)
  | .null => some none
  | .num n => some (some n)
  | _ => none

/-- Serialize one transcript entry. -/
def encodeEntry (e : TranscriptEntry) : Json :=
  .obj [("speaker", .str (speakerToString e.speaker)),
        ("text", .str e.text),
        ("timestamp", .num e.timestamp)]

/-- Inverse of `encodeEntry` on its image. -/
def decodeEntry : Json → Option TranscriptEntry
  | .obj [("speaker", .str sp), ("text", .str tx), ("timestamp", .num ts)] =>
      match speakerOfString sp with
      | some s => some ⟨s, tx, ts⟩
      | none => none
  | _ => none

/-- Serialize a transcript. -/
def encodeEntries (es : List TranscriptEntry) : List Json :=
  es.map encodeEntry

/-- Inverse of `encodeEntries` on its image. -/
def decodeEntries : List Json → Option (List TranscriptEntry)
  | [] => some []
  | j :: rest =>
      match decodeEntry j, decodeEntries rest with
      | some e, some es => some (e :: es)
      | _, _ => none

/-- `JSON.stringify(session)` modelled at the JSON-tree level. -/
def encodeSession (s : CallSession) : Json :=
  .obj [("callId", .str s.callId),
        ("status", .str (statusToString s.status)),
        ("mode", .str (modeToString s.mode)),
        ("customerId", encodeOptStr s.customerId),
        ("transcript", .arr (encodeEntries s.transcript)),
        ("switchCount", .num s.switchCount),
        ("startTime", .num s.startTime),
        ("endTime", encodeOptNum s.endTime)]

/-- `JSON.parse` of a serialized session: the inverse of `encodeSession` on
its image; any other tree yields `none` (a parse or shape failure). -/
def decodeSession : Json → Option CallSession
  | .obj [("callId", .str cid), ("status", .str st), ("mode", .str md),
          ("customerId", cj), ("transcript", .arr ts),
          ("switchCount", .num sc), ("startTime", .num t0),
          ("endTime", ej)] =>
      match statusOfString st, modeOfString md, decodeOptStr cj,
            decodeEntries ts, decodeOptNum ej with
      | some status, some mode, some cust, some entries, some endT =>
          some ⟨cid, status, mode, cust, entries, sc, t0, endT⟩
      | _, _, _, _, _ => none
  | _ => none

/-- `Map.get`: the value bound to `k`, if any. -/
def mapGet {α : Type} : List (String × α) → String → Option α
  | [], _ => none
  | kv :: rest, k => if kv.1 = k then some kv.2 else mapGet rest k

/-- `Map.delete`: remove the binding for `k`. -/
def mapDel {α : Type} : List (String × α) → String → List (String × α)
  | [], _ => []
  | kv :: rest, k => if kv.1 = k then mapDel rest k else kv :: mapDel rest k

/-- `Map.set`: bind `k` to `v`, replacing any previous binding
(get-observably equal to the in-place replacement that `Map.set` performs). -/
def mapSet {α : Type} (m : List (String × α)) (k : String) (v : α) :
    List (String × α) :=
  (k, v) :: mapDel m k

/-- One stored record of the key space: `{ data, expiry }` where `data` is the
serialized session and `expiry` an absolute instant in milliseconds. -/
structure MemEntry where
  data : Json
  expiry : Nat

/-- The module-level mutable state of the session-store module plus its
environment: the flags `useInMemory` / `connected`, the primary (Redis) key
space, the in-memory fallback `Map`, and the fault-injection bits `redisUp`
(would a fresh connection attempt succeed) and `readFault` (the next primary
`GET` rejects). -/
structure StoreState where
  useInMemory : Bool
  connected : Bool
  redisUp : Bool
  readFault : Bool
  redis : List (String × MemEntry)
  mem : List (String × MemEntry)

/-- Key prefix for session records. -/
def sessionKeyPref : String := "session:"

/-- Session TTL in seconds (2 hours). -/
def SESSION_TTL : Nat := 60 * 60 * 2

/-- The storage key of a call: `` `session:${callId}` ``. -/
def sessionKey (callId : String) : String := sessionKeyPref ++ callId

/-- `cleanExpired`: drop every in-memory entry with `expiry < now`. -/
def cleanExpired (now : Nat) : List (String × MemEntry) → List (String × MemEntry)
  | [] => []
  | kv :: rest =>
      if kv.2.expiry < now then cleanExpired now rest
      else kv :: cleanExpired now rest

/-- `connectRedis`: in fallback mode answer `null` at once; with a ready
client return it; otherwise attempt a fresh connection — success installs the
client, failure (timeout or retries exhausted) permanently sets
`useInMemory`. The promise-coalescing wait loop of the source serializes
concurrent attempts into one, which the sequential model renders as a single
attempt. -/
def connectRedis (s : StoreState) : Option Unit × StoreState :=
  if s.useInMemory then (none, s)
  else if s.connected then (some (), s)
  else if s.redisUp then (some (), { s with connected := true })
  else (none, { s with useInMemory := true })

/-- `getRedisAsync`: `null` in fallback mode, the ready client if present,
otherwise `connectRedis`. -/
def getRedisAsync (s : StoreState) : Option Unit × StoreState :=
  if s.useInMemory then (none, s)
  else if s.connected then (some (), s)
  else connectRedis s

/-- The entry lookup shared by the read paths: present and not expired
(`entry.expiry > Date.now()`, strict) parses the stored data, otherwise the
session is absent. -/
def memLookup (now : Nat) (m : List (String × MemEntry)) (key : String) :
    Option CallSession :=
  match mapGet m key with
  | some entry => if now < entry.expiry then decodeSession entry.data else none
  | none => none

/-- `createSession`: serialize and store under `session:<callId>` with a fresh
2-hour expiry — in the in-memory `Map` when in fallback mode or when no client
could be obtained, via `SETEX` on the primary otherwise. Total: it never
throws. -/
def createSession (now : Nat) (callId : String) (session : CallSession)
    (s : StoreState) : StoreState :=
  let key := sessionKey callId
  let data := encodeSession session
  if s.useInMemory then
    { s with mem := mapSet s.mem key ⟨data, now + SESSION_TTL * 1000⟩ }
  else
    match getRedisAsync s with
    | (some _, s1) =>
        { s1 with redis := mapSet s1.redis key ⟨data, now + SESSION_TTL * 1000⟩ }
    | (none, s1) =>
        { s1 with mem := mapSet s1.mem key ⟨data, now + SESSION_TTL * 1000⟩ }

/-- `getSession`: in fallback mode, sweep expired entries then read the
in-memory `Map`; otherwise read the primary (a rejected `GET` is caught and
returned as `null` — the `readFault` flag), falling back to the in-memory
`Map` when no client could be obtained. -/
def getSession (now : Nat) (callId : String) (s : StoreState) :
    Option CallSession × StoreState :=
  let key := sessionKey callId
  if s.useInMemory then
    let m := cleanExpired now s.mem
    (memLookup now m key, { s with mem := m })
  else
    match getRedisAsync s with
    | (some _, s1) =>
        (if s1.readFault then none else memLookup now s1.redis key, s1)
    | (none, s1) => (memLookup now s1.mem key, s1)

/-- A partial session record, `Partial<CallSession>`: each field optionally
present. -/
structure SessionUpdates where
  callId : Option String := none
  status : Option CallStatus := none
  mode : Option CallMode := none
  customerId : Option (Option String) := none
  transcript : Option (List TranscriptEntry) := none
  switchCount : Option Nat := none
  startTime : Option Nat := none
  endTime : Option (Option Nat) := none

/-- The shallow merge `{ ...current, ...updates }`: a field supplied by the
update wins, all others come from the current session. -/
def mergeSession (cur : CallSession) (u : SessionUpdates) : CallSession :=
  { callId := u.callId.getD cur.callId
    status := u.status.getD cur.status
    mode := u.mode.getD cur.mode
    customerId := u.customerId.getD cur.customerId
    transcript := u.transcript.getD cur.transcript
    switchCount := u.switchCount.getD cur.switchCount
    startTime := u.startTime.getD cur.startTime
    endTime := u.endTime.getD cur.endTime }

/-- `updateSession`: fetch the current session; absent means `null` and no
write; otherwise merge the partial on top and re-persist via `createSession`
(refreshing the TTL), returning the merged session. -/
def updateSession (now : Nat) (callId : String) (updates : SessionUpdates)
    (s : StoreState) : Option CallSession × StoreState :=
  match getSession now callId s with
  | (none, s1) => (none, s1)
  | (some cur, s1) =>
      let updated := mergeSession cur updates
      (some updated, createSession now callId updated s1)

/-- `deleteSession`: remove the key from the in-memory `Map` in fallback mode
or when no client could be obtained, `DEL` on the primary otherwise. Total:
deleting an absent key is not an error. -/
def deleteSession (callId : String) (s : StoreState) : StoreState :=
  let key := sessionKey callId
  if s.useInMemory then
    { s with mem := mapDel s.mem key }
  else
    match getRedisAsync s with
    | (some _, s1) => { s1 with redis := mapDel s1.redis key }
    | (none, s1) => { s1 with mem := mapDel s1.mem key }

/-- `appendTranscript`: fetch the session; if absent, return without any
write; otherwise push `{ speaker, text, timestamp ?? Date.now() }` onto the
end of the transcript and re-persist via `createSession`. -/
def appendTranscript (now : Nat) (callId : String) (speaker : Speaker)
    (text : String) (timestamp : Option Nat) (s : StoreState) : StoreState :=
  match getSession now callId s with
  | (none, s1) => s1
  | (some session, s1) =>
      let entry : TranscriptEntry := ⟨speaker, text, timestamp.getD now⟩
      createSession now callId
        { session with transcript := session.transcript ++ [entry] } s1

/-- The stored entry for a key, read from whichever key space the state is
currently operating on (in-memory in fallback mode, the primary otherwise). -/
def storedData (st : StoreState) (key : String) : Option MemEntry :=
  if st.useInMemory then mapGet st.mem key else mapGet st.redis key

/-- One session-store operation, for reasoning about arbitrary sequences of
calls into the module. -/
inductive StoreOp where
  | create (now : Nat) (callId : String) (session : CallSession)
  | get (now : Nat) (callId : String)
  | update (now : Nat) (callId : String) (updates : SessionUpdates)
  | del (callId : String)
  | append (now : Nat) (callId : String) (speaker : Speaker) (text : String)
      (timestamp : Option Nat)
  | connect
  | getClient

/-- The state transition of one store operation (results discarded). -/
def applyOp (s : StoreState) : StoreOp → StoreState
  | .create now callId session => createSession now callId session s
  | .get now callId => (getSession now callId s).2
  | .update now callId updates => (updateSession now callId updates s).2
  | .del callId => deleteSession callId s
  | .append now callId sp tx ts => appendTranscript now callId sp tx ts s
  | .connect => (connectRedis s).2
  | .getClient => (getRedisAsync s).2

/-- The state after a sequence of store operations. -/
def applyOps (ops : List StoreOp) (s : StoreState) : StoreState :=
  ops.foldl applyOp s

/-- Switch direction, from the union type `'AI_TO_HUMAN' | 'HUMAN_TO_AI'`. -/
inductive Direction where
  | AI_TO_HUMAN
  | HUMAN_TO_AI
deriving DecidableEq

/-- The mode a direction switches into. -/
def targetMode : Direction → CallMode
  | .AI_TO_HUMAN => .HUMAN_REP
  | .HUMAN_TO_AI => .AI_AGENT

/-- One committed switch record, per the `switch_logs` table
(`callId`, `direction`, optional `reason`, timestamp). -/
structure SwitchLogEntry where
  callId : String
  direction : Direction
  reason : Option String
  timestamp : Nat
deriving DecidableEq

/-- Modelled from the spec: the state owned by the SwitchCoordinator of
spec sec. 4.2 (`switchService.ts`, which is absent from the provided
sources — only its caller `switchController.ts` is present): the live
sessions it arbitrates over and the append-only audit log of committed
switches. -/
structure CoordState where
  sessions : List (String × CallSession)
  log : List SwitchLogEntry

/-- Modelled from the spec: `canSwitch(callId, direction)` of spec sec. 4.2
(`switchService.ts` is absent from the provided sources). Pure, read-only
decision: reject when the session does not exist, when it has already ended,
or when the requested target mode equals the current mode (no
self-transition); each rejection carries a specific reason. -/
def canSwitch (cs : CoordState) (callId : String) (d : Direction) :
    Bool × Option String :=
  match mapGet cs.sessions callId with
  | none => (false, some "Call not found")
  | some sess =>
      if sess.status = .ENDED then (false, some "Call already ended")
      else if sess.mode = targetMode d then
        (false, some "Already in target mode")
      else (true, none)

/-- Modelled from the spec: `executeSwitch` of spec sec. 4.2
(`switchService.ts` is absent from the provided sources). The commit path,
serialized per `callId` by the per-call lock: re-validate `canSwitch` under
the lock, then atomically set the new mode, increment `switchCount` and
append a `SwitchLogEntry`; a failed validation commits nothing and reports
no success. -/
def executeSwitch (now : Nat) (callId : String) (d : Direction)
    (reason : Option String) (cs : CoordState) :
    Option (CallMode × Nat) × CoordState :=
  if (canSwitch cs callId d).1 then
    match mapGet cs.sessions callId with
    | some sess =>
        let sess1 :=
          { sess with mode := targetMode d, switchCount := sess.switchCount + 1 }
        (some (targetMode d, now),
         { sessions := mapSet cs.sessions callId sess1,
           log := cs.log ++ [⟨callId, d, reason, now⟩] })
    | none => (none, cs)
  else (none, cs)

/-- `n` racing switch requests for one call with one target direction: the
per-call lock serializes them into consecutive commits (any arrival order of
identical requests gives this same sequence), each re-validated against the
predecessor's committed state. Returns how many requests committed and the
final state. -/
def runSwitches (now : Nat) (callId : String) (d : Direction)
    (reason : Option String) : Nat → CoordState → Nat × CoordState
  | 0, cs => (0, cs)
  | n + 1, cs =>
      let step := executeSwitch now callId d reason cs
      let rest := runSwitches now callId d reason n step.2
      ((if step.1.isSome then 1 else 0) + rest.1, rest.2)

/-- One switch request `{timestamp, callId, direction, reason}`. -/
structure SwitchReq where
  now : Nat
  callId : String
  direction : Direction
  reason : Option String

/-- The coordinator state after an arbitrary serialized sequence of switch
requests. -/
def applySwitches (reqs : List SwitchReq) (cs : CoordState) : CoordState :=
  reqs.foldl (fun acc r => (executeSwitch r.now r.callId r.direction r.reason acc).2) cs

/-- The audit rows recorded for one call: `SwitchLogEntry where callId == X`. -/
def logsFor (cs : CoordState) (callId : String) : List SwitchLogEntry :=
  cs.log.filter (fun e => e.callId = callId)

/-- Audit-consistency invariant of spec sec. 3: every live session's
`switchCount` equals the number of `SwitchLogEntry` rows for its call. -/
def SwitchInvariant (cs : CoordState) : Prop :=
  ∀ kv ∈ cs.sessions, kv.2.switchCount = (logsFor cs kv.1).length

instance (cs : CoordState) : Decidable (SwitchInvariant cs) :=
  List.decidableBAll _ cs.sessions

/-- A row of the `calls` table as read by `getCallMetrics`
(times in milliseconds). -/
structure DbCall where
  id : String
  mode : CallMode
  status : CallStatus
  startedAt : Nat
  endedAt : Option Nat
deriving DecidableEq

/-- The `CallMetrics` record returned by the analytics service. -/
structure CallMetrics where
  callId : String
  duration : Nat
  mode : CallMode
  switchCount : Nat
  switches : List (Direction × Option String × Nat)
  status : CallStatus
  startedAt : Nat
  endedAt : Option Nat
deriving DecidableEq

/-- `getCallMetrics` (analyticsService.ts), for a found call with its
`switchLogs` relation: `switchCount` is `call.switchLogs.length`, `switches`
projects the same rows, `duration` is `Math.round(ms / 1000)` of the elapsed
span, using `Date.now()` when the call has not ended. -/
def getCallMetrics (now : Nat) (call : DbCall) (switchLogs : List SwitchLogEntry) :
    CallMetrics :=
  let endMs := call.endedAt.getD now
  { callId := call.id
    duration := (endMs - call.startedAt + 500) / 1000
    mode := call.mode
    switchCount := switchLogs.length
    switches := switchLogs.map (fun s => (s.direction, s.reason, s.timestamp))
    status := call.status
    startedAt := call.startedAt
    endedAt := call.endedAt }

/-- A small live session used to instantiate theorems on concrete inputs. -/
def demoSession : CallSession :=
  { callId := "c1", status := .ACTIVE, mode := .AI_AGENT, customerId := none
    transcript := [], switchCount := 0, startTime := 0, endTime := none }

/-- A store state in fallback mode holding `demoSession` live until 7 200 000 ms. -/
def demoMemState : StoreState :=
  { useInMemory := true, connected := false, redisUp := false, readFault := false
    redis := [], mem := [(sessionKey "c1", ⟨encodeSession demoSession, 7200000⟩)] }

/-- A connected store state whose next primary read rejects, holding
`demoSession` live on the primary. -/
def demoFaultState : StoreState :=
  { useInMemory := false, connected := true, redisUp := true, readFault := true
    redis := [(sessionKey "c1", ⟨encodeSession demoSession, 7200000⟩)], mem := [] }

/-- A connected, healthy store state with an empty primary key space. -/
def demoEmptyState : StoreState :=
  { useInMemory := false, connected := true, redisUp := true, readFault := false
    redis := [], mem := [] }


/-- A store state that has neither connected nor fallen back, with the
primary unreachable. -/
def demoDownState : StoreState :=
  { useInMemory := false, connected := false, redisUp := false, readFault := false
    redis := [], mem := [] }

/-- A fallback-mode store state holding an entry for `"c1"` that expired at
instant 10. -/
def demoExpiredState : StoreState :=
  { useInMemory := true, connected := false, redisUp := false, readFault := false
    redis := [], mem := [(sessionKey "c1", ⟨encodeSession demoSession, 10⟩)] }

/-- An empty fallback-mode store state. -/
def demoMemEmpty : StoreState :=
  { useInMemory := true, connected := false, redisUp := false, readFault := false
    redis := [], mem := [] }

/-- A coordinator state holding the live `demoSession` and an empty audit log. -/
def demoCoord : CoordState :=
  { sessions := [("c1", demoSession)], log := [] }

/-- The `calls`-table row matching `demoSession`. -/
def demoCall : DbCall :=
  { id := "c1", mode := .AI_AGENT, status := .ACTIVE, startedAt := 0, endedAt := none }

/-- Well-formedness of an association list as the image of a JavaScript
`Map`: a `Map` binds each key at most once. -/
def MapWF {α : Type} (m : List (String × α)) : Prop :=
  (m.map Prod.fst).Nodup

instance {α : Type} (m : List (String × α)) : Decidable (MapWF m) :=
  List.nodupDecidable _

theorem mapGet_set_self {α : Type} (m : List (String × α)) (k : String) (v : α) :
    mapGet (mapSet m k v) k = some v := by
  simp [mapSet, mapGet]

theorem mapGet_del {α : Type} (m : List (String × α)) (k k' : String) :
    mapGet (mapDel m k) k' = if k' = k then none else mapGet m k' := by
  induction m with
  | nil => simp [mapDel, mapGet]
  | cons kv rest ih =>
      by_cases h1 : kv.1 = k
      · simp only [mapDel, if_pos h1, ih]
        by_cases h2 : k' = k
        · simp [h2]
        · have h3 : kv.1 ≠ k' := by rw [h1]; exact fun hh => h2 hh.symm
          simp [h2, mapGet, h3]
      · simp only [mapDel, if_neg h1, mapGet]
        by_cases h3 : kv.1 = k'
        · have h2 : ¬ k' = k := fun hh => h1 (h3.trans hh)
          simp [h3, h2]
        · simp [h3, ih]

theorem mapGet_set_other {α : Type} (m : List (String × α)) (k k' : String)
    (v : α) (h : k' ≠ k) : mapGet (mapSet m k v) k' = mapGet m k' := by
  simp only [mapSet, mapGet, mapGet_del]
  rw [if_neg (fun hh => h hh.symm), if_neg h]

theorem mapGet_eq_none_of_not_mem {α : Type} (m : List (String × α)) (k : String)
    (h : k ∉ m.map Prod.fst) : mapGet m k = none := by
  induction m with
  | nil => rfl
  | cons kv rest ih =>
      simp only [List.map_cons, List.mem_cons] at h
      push_neg at h
      have hne : ¬ kv.1 = k := fun hh => h.1 hh.symm
      simp [mapGet, hne, ih h.2]

theorem mapGet_clean_none (now : Nat) (m : List (String × MemEntry)) (k : String)
    (h : mapGet m k = none) : mapGet (cleanExpired now m) k = none := by
  induction m with
  | nil => rfl
  | cons kv rest ih =>
      simp only [mapGet] at h
      by_cases h1 : kv.1 = k
      · simp [h1] at h
      · rw [if_neg h1] at h
        by_cases h2 : kv.2.expiry < now <;>
          simp [cleanExpired, h2, mapGet, h1, ih h]

theorem mapGet_clean_live (now : Nat) (m : List (String × MemEntry))
    (k : String) (e : MemEntry) (h : mapGet m k = some e)
    (he : ¬ e.expiry < now) : mapGet (cleanExpired now m) k = some e := by
  induction m with
  | nil => simp [mapGet] at h
  | cons kv rest ih =>
      simp only [mapGet] at h
      by_cases h1 : kv.1 = k
      · rw [if_pos h1] at h
        have hv : kv.2 = e := by injection h
        have he2 : ¬ kv.2.expiry < now := by rw [hv]; exact he
        simp [cleanExpired, he2, he, mapGet, h1, hv]
      · rw [if_neg h1] at h
        by_cases h2 : kv.2.expiry < now <;>
          simp [cleanExpired, h2, mapGet, h1, ih h]

theorem mapGet_clean_expired (now : Nat) (m : List (String × MemEntry))
    (k : String) (e : MemEntry) (hwf : MapWF m) (h : mapGet m k = some e)
    (he : e.expiry < now) : mapGet (cleanExpired now m) k = none := by
  induction m with
  | nil => simp [mapGet] at h
  | cons kv rest ih =>
      simp only [MapWF, List.map_cons, List.nodup_cons] at hwf
      simp only [mapGet] at h
      by_cases h1 : kv.1 = k
      · rw [if_pos h1] at h
        have hv : kv.2 = e := by injection h
        have hnone : mapGet rest k = none :=
          mapGet_eq_none_of_not_mem rest k (h1 ▸ hwf.1)
        simp [cleanExpired, hv, he, mapGet_clean_none now rest k hnone]
      · rw [if_neg h1] at h
        by_cases h2 : kv.2.expiry < now <;>
          simp [cleanExpired, h2, mapGet, h1, ih hwf.2 h]

theorem cleanExpired_idem (now : Nat) (m : List (String × MemEntry)) :
    cleanExpired now (cleanExpired now m) = cleanExpired now m := by
  induction m with
  | nil => rfl
  | cons kv rest ih =>
      by_cases h : kv.2.expiry < now <;> simp [cleanExpired, h, ih]

theorem mem_of_mem_cleanExpired (now : Nat) (m : List (String × MemEntry)) :
    ∀ y ∈ cleanExpired now m, y ∈ m := by
  induction m with
  | nil => intro y hy; simp [cleanExpired] at hy
  | cons kv rest ih =>
      intro y hy
      by_cases h : kv.2.expiry < now
      · exact List.mem_cons_of_mem kv (ih y (by simpa [cleanExpired, h] using hy))
      · simp only [cleanExpired, if_neg h, List.mem_cons] at hy
        rcases hy with hy | hy
        · simp [hy]
        · exact List.mem_cons_of_mem kv (ih y hy)

theorem cleanExpired_wf (now : Nat) (m : List (String × MemEntry))
    (hwf : MapWF m) : MapWF (cleanExpired now m) := by
  induction m with
  | nil => exact hwf
  | cons kv rest ih =>
      simp only [MapWF, List.map_cons, List.nodup_cons] at hwf
      by_cases h : kv.2.expiry < now
      · simpa [cleanExpired, h] using ih hwf.2
      · simp only [cleanExpired, if_neg h, MapWF, List.map_cons, List.nodup_cons]
        refine ⟨fun hm => hwf.1 ?_, ih hwf.2⟩
        rcases List.mem_map.mp hm with ⟨x, hx, hx1⟩
        exact List.mem_map.mpr ⟨x, mem_of_mem_cleanExpired now rest x hx, hx1⟩

theorem statusOfString_toString (st : CallStatus) :
    statusOfString (statusToString st) = some st := by
  cases st <;> decide

theorem modeOfString_toString (md : CallMode) :
    modeOfString (modeToString md) = some md := by
  cases md <;> decide

theorem speakerOfString_toString (sp : Speaker) :
    speakerOfString (speakerToString sp) = some sp := by
  cases sp <;> decide

theorem decodeOptStr_encode (c : Option String) :
    decodeOptStr (encodeOptStr c) = some c := by
  cases c <;> rfl

theorem decodeOptNum_encode (c : Option Nat) :
    decodeOptNum (encodeOptNum c) = some c := by
  cases c <;> rfl

theorem decodeEntry_encode (e : TranscriptEntry) :
    decodeEntry (encodeEntry e) = some e := by
  cases e with
  | mk sp tx ts => simp [encodeEntry, decodeEntry, speakerOfString_toString]

theorem decodeEntries_encode (es : List TranscriptEntry) :
    decodeEntries (encodeEntries es) = some es := by
  induction es with
  | nil => rfl
  | cons e rest ih =>
      simp only [encodeEntries, List.map_cons] at ih ⊢
      simp [decodeEntries, decodeEntry_encode, ih]

theorem decodeSession_encode (s : CallSession) :
    decodeSession (encodeSession s) = some s := by
  cases s with
  | mk cid status mode cust ts sc t0 te =>
      simp [encodeSession, decodeSession, statusOfString_toString,
            modeOfString_toString, decodeOptStr_encode, decodeOptNum_encode,
            decodeEntries_encode]

theorem getRedisAsync_inMem (s : StoreState) (h : s.useInMemory = true) :
    getRedisAsync s = (none, s) := by
  simp [getRedisAsync, h]

theorem getRedisAsync_connected (s : StoreState) (h1 : s.useInMemory = false)
    (h2 : s.connected = true) : getRedisAsync s = (some (), s) := by
  simp [getRedisAsync, h1, h2]

theorem getRedisAsync_fresh_up (s : StoreState) (h1 : s.useInMemory = false)
    (h2 : s.connected = false) (h3 : s.redisUp = true) :
    getRedisAsync s = (some (), { s with connected := true }) := by
  simp [getRedisAsync, connectRedis, h1, h2, h3]

theorem getRedisAsync_fresh_down (s : StoreState) (h1 : s.useInMemory = false)
    (h2 : s.connected = false) (h3 : s.redisUp = false) :
    getRedisAsync s = (none, { s with useInMemory := true }) := by
  simp [getRedisAsync, connectRedis, h1, h2, h3]

theorem createSession_inMem (now : Nat) (callId : String) (sess : CallSession)
    (s : StoreState) (h : s.useInMemory = true) :
    createSession now callId sess s =
      { s with mem := mapSet s.mem (sessionKey callId)
                 ⟨encodeSession sess, now + SESSION_TTL * 1000⟩ } := by
  simp [createSession, h]

theorem createSession_connected (now : Nat) (callId : String) (sess : CallSession)
    (s : StoreState) (h1 : s.useInMemory = false) (h2 : s.connected = true) :
    createSession now callId sess s =
      { s with redis := mapSet s.redis (sessionKey callId)
                 ⟨encodeSession sess, now + SESSION_TTL * 1000⟩ } := by
  simp [createSession, getRedisAsync_connected s h1 h2, h1]

theorem createSession_fresh_up (now : Nat) (callId : String) (sess : CallSession)
    (s : StoreState) (h1 : s.useInMemory = false) (h2 : s.connected = false)
    (h3 : s.redisUp = true) :
    createSession now callId sess s =
      { s with connected := true,
               redis := mapSet s.redis (sessionKey callId)
                 ⟨encodeSession sess, now + SESSION_TTL * 1000⟩ } := by
  simp [createSession, getRedisAsync_fresh_up s h1 h2 h3, h1]

theorem createSession_fresh_down (now : Nat) (callId : String) (sess : CallSession)
    (s : StoreState) (h1 : s.useInMemory = false) (h2 : s.connected = false)
    (h3 : s.redisUp = false) :
    createSession now callId sess s =
      { s with useInMemory := true,
               mem := mapSet s.mem (sessionKey callId)
                 ⟨encodeSession sess, now + SESSION_TTL * 1000⟩ } := by
  simp [createSession, getRedisAsync_fresh_down s h1 h2 h3, h1]

theorem storedData_create (now : Nat) (callId : String) (sess : CallSession)
    (s : StoreState) :
    storedData (createSession now callId sess s) (sessionKey callId) =
      some ⟨encodeSession sess, now + SESSION_TTL * 1000⟩ := by
  by_cases h1 : s.useInMemory = true
  · rw [createSession_inMem now callId sess s h1]
    simp [storedData, h1, mapGet_set_self]
  · rw [Bool.not_eq_true] at h1
    by_cases h2 : s.connected = true
    · rw [createSession_connected now callId sess s h1 h2]
      simp [storedData, h1, mapGet_set_self]
    · rw [Bool.not_eq_true] at h2
      by_cases h3 : s.redisUp = true
      · rw [createSession_fresh_up now callId sess s h1 h2 h3]
        simp [storedData, h1, mapGet_set_self]
      · rw [Bool.not_eq_true] at h3
        rw [createSession_fresh_down now callId sess s h1 h2 h3]
        simp [storedData, mapGet_set_self]

theorem getSession_inMem (now : Nat) (callId : String) (s : StoreState)
    (h : s.useInMemory = true) :
    getSession now callId s =
      (memLookup now (cleanExpired now s.mem) (sessionKey callId),
       { s with mem := cleanExpired now s.mem }) := by
  simp [getSession, h]

theorem getSession_connected (now : Nat) (callId : String) (s : StoreState)
    (h1 : s.useInMemory = false) (h2 : s.connected = true) :
    getSession now callId s =
      (if s.readFault = true then none
       else memLookup now s.redis (sessionKey callId), s) := by
  simp [getSession, getRedisAsync_connected s h1 h2, h1]

theorem getSession_fresh_up (now : Nat) (callId : String) (s : StoreState)
    (h1 : s.useInMemory = false) (h2 : s.connected = false) (h3 : s.redisUp = true) :
    getSession now callId s =
      (if s.readFault = true then none
       else memLookup now s.redis (sessionKey callId),
       { s with connected := true }) := by
  simp [getSession, getRedisAsync_fresh_up s h1 h2 h3, h1]

theorem getSession_fresh_down (now : Nat) (callId : String) (s : StoreState)
    (h1 : s.useInMemory = false) (h2 : s.connected = false) (h3 : s.redisUp = false) :
    getSession now callId s =
      (memLookup now s.mem (sessionKey callId), { s with useInMemory := true }) := by
  simp [getSession, getRedisAsync_fresh_down s h1 h2 h3, h1]

theorem memLookup_del_self (now : Nat) (m : List (String × MemEntry)) (k : String) :
    memLookup now (mapDel m k) k = none := by
  simp [memLookup, mapGet_del]

theorem memLookup_clean_set_self (t : Nat) (m : List (String × MemEntry))
    (key : String) (data : Json) (exp : Nat) (h : t < exp) :
    memLookup t (cleanExpired t (mapSet m key ⟨data, exp⟩)) key =
      decodeSession data := by
  have hlive : ¬ (⟨data, exp⟩ : MemEntry).expiry < t := by simp; omega
  rw [memLookup, mapGet_clean_live t _ key _ (mapGet_set_self m key _) hlive]
  simp [h]

theorem memLookup_clean (now : Nat) (m : List (String × MemEntry)) (k : String)
    (hwf : MapWF m) :
    memLookup now (cleanExpired now m) k = memLookup now m k := by
  rcases hg : mapGet m k with _ | e
  · simp [memLookup, mapGet_clean_none now m k hg, hg]
  · by_cases he : e.expiry < now
    · rw [memLookup, mapGet_clean_expired now m k e hwf hg he]
      simp [memLookup, hg, Nat.lt_asymm he]
    · rw [memLookup, mapGet_clean_live now m k e hg he]
      simp [memLookup, hg]


theorem mapDel_idem {α : Type} (m : List (String × α)) (k : String) :
    mapDel (mapDel m k) k = mapDel m k := by
  induction m with
  | nil => rfl
  | cons kv rest ih =>
      by_cases h : kv.1 = k <;> simp [mapDel, h, ih]

theorem memLookup_clean_del (now : Nat) (m : List (String × MemEntry))
    (k : String) : memLookup now (cleanExpired now (mapDel m k)) k = none := by
  have h := mapGet_clean_none now (mapDel m k) k (by simp [mapGet_del])
  simp [memLookup, h]

/-- C10: in fallback (in-memory) mode, `createSession` followed by
`getSession` before the 2-hour expiry returns exactly the stored session —
the serialize/parse round-trip through the in-memory store preserves the
`CallSession` — and a later `createSession` for the same `callId` fully
replaces the earlier value, so `getSession` never returns the stale first
write. -/
theorem inMemory_write_read_roundtrip
    (n1 n2 t : Nat) (callId : String) (s1 s2 : CallSession) (st : StoreState)
    (hmem : st.useInMemory = true)
    (ht1 : t < n1 + SESSION_TTL * 1000) (ht2 : t < n2 + SESSION_TTL * 1000) :
    (getSession t callId (createSession n1 callId s1 st)).1 = some s1 ∧
    (getSession t callId
        (createSession n2 callId s2 (createSession n1 callId s1 st))).1 = some s2 := by
  have hc1 := createSession_inMem n1 callId s1 st hmem
  have hm1 : (createSession n1 callId s1 st).useInMemory = true := by
    rw [hc1]; exact hmem
  constructor
  · have hml := memLookup_clean_set_self t st.mem (sessionKey callId)
      (encodeSession s1) (n1 + SESSION_TTL * 1000) ht1
    rw [getSession_inMem t callId _ hm1]
    simp [hc1, hml, decodeSession_encode]
  · have hc2 := createSession_inMem n2 callId s2 (createSession n1 callId s1 st) hm1
    have hm2 : (createSession n2 callId s2 (createSession n1 callId s1 st)).useInMemory
        = true := by rw [hc2]; exact hm1
    have hml := memLookup_clean_set_self t (createSession n1 callId s1 st).mem
      (sessionKey callId) (encodeSession s2) (n2 + SESSION_TTL * 1000) ht2
    rw [getSession_inMem t callId _ hm2]
    simp [hc2, hml, decodeSession_encode]

/-- C10 witness: concrete instance on the empty fallback store, writing at
instants 0 and 3 and reading at instant 5. -/
theorem inMemory_write_read_roundtrip_witness :
    (getSession 5 "c1" (createSession 0 "c1" demoSession demoMemEmpty)).1 =
      some demoSession :=
  (inMemory_write_read_roundtrip 0 3 5 "c1" demoSession demoSession demoMemEmpty
    rfl (by decide) (by decide)).1

/-- C2: `updateSession` on a missing session returns `null` and performs no
write (the resulting state is exactly the post-read state — not an upsert);
on an existing session it returns the shallow merge (update fields win) and
re-persists exactly the serialized merged session with a refreshed 2-hour
TTL. -/
theorem updateSession_merge_spec (now : Nat) (callId : String)
    (u : SessionUpdates) (s : StoreState) :
    ((getSession now callId s).1 = none →
        updateSession now callId u s = (none, (getSession now callId s).2)) ∧
    (∀ cur, (getSession now callId s).1 = some cur →
        (updateSession now callId u s).1 = some (mergeSession cur u) ∧
        storedData (updateSession now callId u s).2 (sessionKey callId) =
          some ⟨encodeSession (mergeSession cur u), now + SESSION_TTL * 1000⟩) := by
  constructor
  · intro h
    have hEq : getSession now callId s = (none, (getSession now callId s).2) := by
      rw [← h]
    unfold updateSession
    rw [hEq]
  · intro cur h
    have hEq : getSession now callId s = (some cur, (getSession now callId s).2) := by
      rw [← h]
    refine ⟨?_, ?_⟩
    · unfold updateSession
      rw [hEq]
    · unfold updateSession
      rw [hEq]
      exact storedData_create now callId (mergeSession cur u) _

/-- C2 witness: updating the live `demoSession` flips its mode and the merged
session is returned. -/
theorem updateSession_merge_spec_witness :
    (updateSession 5 "c1" { mode := some .HUMAN_REP } demoMemState).1 =
      some (mergeSession demoSession { mode := some .HUMAN_REP }) :=
  ((updateSession_merge_spec 5 "c1" { mode := some .HUMAN_REP } demoMemState).2
    demoSession (by decide)).1

/-- C3: when the primary backend is unavailable (fallback mode already
active, or no ready client and a connection attempt would fail),
`createSession` silently stores the session in the in-memory fallback store
with its 2-hour expiry, touches the primary key space not at all, and — being
a total function of the model — completes normally rather than raising a
storage-unavailability error. -/
theorem createSession_fallback (now : Nat) (callId : String)
    (sess : CallSession) (s : StoreState)
    (h : s.useInMemory = true ∨ (s.connected = false ∧ s.redisUp = false)) :
    mapGet (createSession now callId sess s).mem (sessionKey callId) =
      some ⟨encodeSession sess, now + SESSION_TTL * 1000⟩ ∧
    (createSession now callId sess s).redis = s.redis ∧
    (createSession now callId sess s).useInMemory = true := by
  by_cases h1 : s.useInMemory = true
  · rw [createSession_inMem now callId sess s h1]
    exact ⟨mapGet_set_self _ _ _, rfl, h1⟩
  · rw [Bool.not_eq_true] at h1
    rcases h with h | ⟨h2, h3⟩
    · simp [h1] at h
    · rw [createSession_fresh_down now callId sess s h1 h2 h3]
      exact ⟨mapGet_set_self _ _ _, rfl, rfl⟩

/-- C3 witness: storing into the never-connected, unreachable-primary
state. -/
theorem createSession_fallback_witness :
    mapGet (createSession 0 "c1" demoSession demoDownState).mem
      (sessionKey "c1") = some ⟨encodeSession demoSession, SESSION_TTL * 1000⟩ :=
  (createSession_fallback 0 "c1" demoSession demoDownState
    (Or.inr ⟨rfl, rfl⟩)).1

theorem deleteSession_inMem (callId : String) (s : StoreState)
    (h : s.useInMemory = true) :
    deleteSession callId s = { s with mem := mapDel s.mem (sessionKey callId) } := by
  simp [deleteSession, h]

theorem deleteSession_connected (callId : String) (s : StoreState)
    (h1 : s.useInMemory = false) (h2 : s.connected = true) :
    deleteSession callId s = { s with redis := mapDel s.redis (sessionKey callId) } := by
  simp [deleteSession, getRedisAsync_connected s h1 h2, h1]

theorem deleteSession_fresh_up (callId : String) (s : StoreState)
    (h1 : s.useInMemory = false) (h2 : s.connected = false) (h3 : s.redisUp = true) :
    deleteSession callId s =
      { s with connected := true, redis := mapDel s.redis (sessionKey callId) } := by
  simp [deleteSession, getRedisAsync_fresh_up s h1 h2 h3, h1]

theorem deleteSession_fresh_down (callId : String) (s : StoreState)
    (h1 : s.useInMemory = false) (h2 : s.connected = false) (h3 : s.redisUp = false) :
    deleteSession callId s =
      { s with useInMemory := true, mem := mapDel s.mem (sessionKey callId) } := by
  simp [deleteSession, getRedisAsync_fresh_down s h1 h2 h3, h1]

/-- C9: `deleteSession` is idempotent — deleting twice yields exactly the
state of deleting once (so deleting an absent `callId` changes nothing and,
the function being total, raises no error either time) — and after a delete
the session is gone: any `getSession` on the resulting state returns
`null`. -/
theorem deleteSession_idempotent (callId : String) (s : StoreState) :
    deleteSession callId (deleteSession callId s) = deleteSession callId s ∧
    (∀ now, (getSession now callId (deleteSession callId s)).1 = none) := by
  by_cases h1 : s.useInMemory = true
  · have hd := deleteSession_inMem callId s h1
    constructor
    · rw [hd, deleteSession_inMem callId _
        (show ({ s with mem := mapDel s.mem (sessionKey callId) }).useInMemory = true from h1)]
      simp [mapDel_idem]
    · intro now
      rw [hd, getSession_inMem now callId _
        (show ({ s with mem := mapDel s.mem (sessionKey callId) }).useInMemory = true from h1)]
      simp [memLookup_clean_del]
  · rw [Bool.not_eq_true] at h1
    by_cases h2 : s.connected = true
    · have hd := deleteSession_connected callId s h1 h2
      constructor
      · rw [hd, deleteSession_connected callId _
          (show ({ s with redis := mapDel s.redis (sessionKey callId) }).useInMemory = false from h1)
          (show ({ s with redis := mapDel s.redis (sessionKey callId) }).connected = true from h2)]
        simp [mapDel_idem]
      · intro now
        rw [hd, getSession_connected now callId _
          (show ({ s with redis := mapDel s.redis (sessionKey callId) }).useInMemory = false from h1)
          (show ({ s with redis := mapDel s.redis (sessionKey callId) }).connected = true from h2)]
        by_cases hf : s.readFault = true <;> simp [hf, memLookup_del_self]
    · rw [Bool.not_eq_true] at h2
      by_cases h3 : s.redisUp = true
      · have hd := deleteSession_fresh_up callId s h1 h2 h3
        have hu : ({ s with connected := true, redis := mapDel s.redis (sessionKey callId) } : StoreState).useInMemory = false := h1
        constructor
        · rw [hd, deleteSession_connected callId _ hu rfl]
          simp [mapDel_idem]
        · intro now
          rw [hd, getSession_connected now callId _ hu rfl]
          by_cases hf : s.readFault = true <;> simp [hf, memLookup_del_self]
      · rw [Bool.not_eq_true] at h3
        have hd := deleteSession_fresh_down callId s h1 h2 h3
        constructor
        · rw [hd, deleteSession_inMem callId _ rfl]
          simp [mapDel_idem]
        · intro now
          rw [hd, getSession_inMem now callId _ rfl]
          simp [memLookup_clean_del]

/-- C8 counterexample: a storage-layer read failure is observationally
identical to a nonexistent session. `demoFaultState` holds a live, decodable
session for `"c1"` on the primary (clearing the fault flag returns it), yet
with the primary read rejecting, `getSession` yields exactly the `none`
that the empty store `demoEmptyState` yields — the caller cannot tell the
two apart, contradicting the claimed distinguishability. -/
theorem storage_failure_indistinguishable :
    (getSession 1000 "c1" demoFaultState).1 = none ∧
    (getSession 1000 "c1" { demoFaultState with readFault := false }).1 =
      some demoSession ∧
    (getSession 1000 "c1" demoEmptyState).1 = none ∧
    (getSession 1000 "c1" demoFaultState).1 =
      (getSession 1000 "c1" demoEmptyState).1 := by
  refine ⟨?_, ?_, ?_, ?_⟩ <;> decide

/-- C8 amended: a primary-side read failure inside `getSession` is caught and
surfaced as `null` with the state untouched — the same observable as a
nonexistent session — so callers cannot distinguish a storage read failure
from not-found on the read path; only failures outside `getSession` surface
differently. -/
theorem getSession_swallows_read_failure (now : Nat) (callId : String)
    (s : StoreState) (h1 : s.useInMemory = false) (h2 : s.connected = true)
    (h3 : s.readFault = true) : getSession now callId s = (none, s) := by
  rw [getSession_connected now callId s h1 h2]
  simp [h3]

/-- C8 amended witness: the faulted read on `demoFaultState`. -/
theorem getSession_swallows_read_failure_witness :
    getSession 1000 "c1" demoFaultState = (none, demoFaultState) :=
  getSession_swallows_read_failure 1000 "c1" demoFaultState rfl rfl rfl

theorem applyOp_inMem (s : StoreState) (op : StoreOp) (h : s.useInMemory = true) :
    (applyOp s op).useInMemory = true ∧ (applyOp s op).redis = s.redis ∧
      (applyOp s op).connected = s.connected := by
  cases op with
  | create now callId sess =>
      rw [applyOp, createSession_inMem now callId sess s h]
      exact ⟨h, rfl, rfl⟩
  | get now callId =>
      rw [applyOp, getSession_inMem now callId s h]
      exact ⟨h, rfl, rfl⟩
  | update now callId u =>
      rw [applyOp]
      unfold updateSession
      rw [getSession_inMem now callId s h]
      rcases hv : memLookup now (cleanExpired now s.mem) (sessionKey callId) with _ | cur
      · exact ⟨h, rfl, rfl⟩
      · dsimp only
        rw [createSession_inMem now callId _ _
          (show ({ s with mem := cleanExpired now s.mem }).useInMemory = true from h)]
        exact ⟨h, rfl, rfl⟩
  | del callId =>
      rw [applyOp, deleteSession_inMem callId s h]
      exact ⟨h, rfl, rfl⟩
  | append now callId sp tx ts =>
      rw [applyOp]
      unfold appendTranscript
      rw [getSession_inMem now callId s h]
      rcases hv : memLookup now (cleanExpired now s.mem) (sessionKey callId) with _ | sess
      · exact ⟨h, rfl, rfl⟩
      · dsimp only
        rw [createSession_inMem now callId _ _
          (show ({ s with mem := cleanExpired now s.mem }).useInMemory = true from h)]
        exact ⟨h, rfl, rfl⟩
  | connect =>
      rw [applyOp]
      simp [connectRedis, h]
  | getClient =>
      rw [applyOp]
      simp [getRedisAsync, h]

theorem applyOps_inMem (ops : List StoreOp) :
    ∀ s : StoreState, s.useInMemory = true →
      (applyOps ops s).useInMemory = true ∧ (applyOps ops s).redis = s.redis ∧
        (applyOps ops s).connected = s.connected := by
  induction ops with
  | nil => exact fun s h => ⟨h, rfl, rfl⟩
  | cons op rest ih =>
      intro s h
      have h1 := applyOp_inMem s op h
      have h2 := ih (applyOp s op) h1.1
      exact ⟨h2.1, h2.2.1.trans h1.2.1, h2.2.2.trans h1.2.2⟩

/-- C4: once the store is in fallback mode (`useInMemory = true`), no
operation ever contacts the primary again for the remainder of the process:
`connectRedis` and `getRedisAsync` return `null` at once without touching the
state, and after any sequence of store operations the flag is still set (it
is never reset), the primary key space is untouched, and no connection has
been established. -/
theorem fallback_is_permanent (s : StoreState) (h : s.useInMemory = true) :
    connectRedis s = (none, s) ∧
    getRedisAsync s = (none, s) ∧
    (∀ ops : List StoreOp,
        (applyOps ops s).useInMemory = true ∧
        (applyOps ops s).redis = s.redis ∧
        (applyOps ops s).connected = s.connected) := by
  refine ⟨by simp [connectRedis, h], by simp [getRedisAsync, h], ?_⟩
  intro ops
  exact applyOps_inMem ops s h

/-- C4 witness: a mixed operation sequence on the fallback-mode store. -/
theorem fallback_is_permanent_witness :
    (applyOps [StoreOp.connect, StoreOp.get 5 "c1",
               StoreOp.create 6 "c2" demoSession, StoreOp.getClient,
               StoreOp.del "c1", StoreOp.append 7 "c2" .HUMAN "hi" none,
               StoreOp.update 8 "c2" { status := some .ENDED }]
        demoMemState).useInMemory = true :=
  ((fallback_is_permanent demoMemState rfl).2.2 _).1

/-- C5: in fallback mode, expiry is lazy, with no background sweep in the
model: `getSession` treats an entry whose expiry instant has passed as
absent, and — on the read path and on the `updateSession` write path, which
both run `cleanExpired` — every strictly expired entry of the in-memory map
is removed opportunistically. -/
theorem lazy_expiry (now : Nat) (callId : String) (s : StoreState)
    (hmem : s.useInMemory = true) (hwf : MapWF s.mem) :
    (∀ e, mapGet s.mem (sessionKey callId) = some e → e.expiry ≤ now →
        (getSession now callId s).1 = none) ∧
    (∀ k e, mapGet s.mem k = some e → e.expiry < now →
        mapGet ((getSession now callId s).2).mem k = none) ∧
    (∀ (u : SessionUpdates) k e, mapGet s.mem k = some e → e.expiry < now →
        mapGet ((updateSession now callId u s).2).mem k = none) := by
  refine ⟨?_, ?_, ?_⟩
  · intro e hg he
    rw [getSession_inMem now callId s hmem]
    by_cases hlt : e.expiry < now
    · simp [memLookup, mapGet_clean_expired now s.mem _ e hwf hg hlt]
    · have heq : ¬ now < e.expiry := by omega
      simp [memLookup, mapGet_clean_live now s.mem _ e hg hlt, heq]
  · intro k e hg he
    rw [getSession_inMem now callId s hmem]
    simp [mapGet_clean_expired now s.mem k e hwf hg he]
  · intro u k e hg he
    unfold updateSession
    rw [getSession_inMem now callId s hmem]
    rcases hv : memLookup now (cleanExpired now s.mem) (sessionKey callId) with _ | cur
    · simp [mapGet_clean_expired now s.mem k e hwf hg he]
    · dsimp only
      rw [createSession_inMem now callId _ _
        (show ({ s with mem := cleanExpired now s.mem }).useInMemory = true from hmem)]
      by_cases hk : k = sessionKey callId
      · exfalso
        rw [hk] at hg
        rw [memLookup, mapGet_clean_expired now s.mem _ e hwf hg he] at hv
        cases hv
      · simp only []
        rw [mapGet_set_other _ _ _ _ hk]
        simp [mapGet_clean_expired now s.mem k e hwf hg he]

/-- C5 witness: the entry for `"c1"`, expired at instant 10, is invisible at
instant 1000 and swept from the map by the read. -/
theorem lazy_expiry_witness :
    (getSession 1000 "c1" demoExpiredState).1 = none :=
  (lazy_expiry 1000 "c1" demoExpiredState rfl (by decide)).1
    ⟨encodeSession demoSession, 10⟩ (by rfl) (by decide)

theorem getSession_none_stable (now : Nat) (callId : String) (s : StoreState)
    (hwf : MapWF s.mem) (h : (getSession now callId s).1 = none) :
    (getSession now callId ((getSession now callId s).2)).1 = none := by
  by_cases h1 : s.useInMemory = true
  · rw [getSession_inMem now callId s h1] at h ⊢
    dsimp only at h ⊢
    rw [getSession_inMem now callId _
      (show ({ s with mem := cleanExpired now s.mem }).useInMemory = true from h1)]
    dsimp only
    rw [cleanExpired_idem]
    exact h
  · rw [Bool.not_eq_true] at h1
    by_cases h2 : s.connected = true
    · rw [getSession_connected now callId s h1 h2]
      dsimp only
      exact h
    · rw [Bool.not_eq_true] at h2
      by_cases h3 : s.redisUp = true
      · rw [getSession_fresh_up now callId s h1 h2 h3] at h ⊢
        dsimp only at h ⊢
        rw [getSession_connected now callId _
          (show ({ s with connected := true }).useInMemory = false from h1) rfl]
        dsimp only
        exact h
      · rw [Bool.not_eq_true] at h3
        rw [getSession_fresh_down now callId s h1 h2 h3] at h ⊢
        dsimp only at h ⊢
        rw [getSession_inMem now callId _
          (show ({ s with useInMemory := true }).useInMemory = true from rfl)]
        dsimp only
        rw [memLookup_clean now s.mem _ hwf]
        exact h

/-- C6: when no live session exists for `callId`, `appendTranscript` performs
exactly the read and nothing else — the resulting state is the post-read
state, no entry is created or resurrected, and a subsequent `getSession`
still returns `null`; when the session does exist, exactly one entry is
appended at the end of its transcript and the session is re-persisted with a
fresh TTL. -/
theorem appendTranscript_no_resurrect (now : Nat) (callId : String)
    (sp : Speaker) (tx : String) (ts : Option Nat) (s : StoreState)
    (hwf : MapWF s.mem) :
    ((getSession now callId s).1 = none →
        appendTranscript now callId sp tx ts s = (getSession now callId s).2 ∧
        (getSession now callId (appendTranscript now callId sp tx ts s)).1 = none) ∧
    (∀ sess, (getSession now callId s).1 = some sess →
        storedData (appendTranscript now callId sp tx ts s) (sessionKey callId) =
          some ⟨encodeSession { sess with
                  transcript := sess.transcript ++ [⟨sp, tx, ts.getD now⟩] },
                now + SESSION_TTL * 1000⟩) := by
  constructor
  · intro h
    have hEq : getSession now callId s = (none, (getSession now callId s).2) := by
      rw [← h]
    have happ : appendTranscript now callId sp tx ts s =
        (getSession now callId s).2 := by
      unfold appendTranscript
      rw [hEq]
    refine ⟨happ, ?_⟩
    rw [happ]
    exact getSession_none_stable now callId s hwf h
  · intro sess h
    have hEq : getSession now callId s = (some sess, (getSession now callId s).2) := by
      rw [← h]
    unfold appendTranscript
    rw [hEq]
    exact storedData_create now callId _ _

/-- C6 witness: appending a late fragment for the absent `"c1"` leaves the
session absent. -/
theorem appendTranscript_no_resurrect_witness :
    (getSession 5 "c1" (appendTranscript 5 "c1" .HUMAN "late" none demoMemEmpty)).1
      = none :=
  ((appendTranscript_no_resurrect 5 "c1" .HUMAN "late" none demoMemEmpty
    (by decide)).1 (by decide)).2

theorem mem_of_mapGet {α : Type} (m : List (String × α)) (k : String) (v : α)
    (h : mapGet m k = some v) : (k, v) ∈ m := by
  induction m with
  | nil => cases h
  | cons kv rest ih =>
      by_cases h1 : kv.1 = k
      · rw [mapGet, if_pos h1] at h
        injection h with h2
        have hkv : kv = (k, v) := Prod.ext h1 h2
        rw [← hkv]
        exact List.mem_cons_self _ _
      · rw [mapGet, if_neg h1] at h
        exact List.mem_cons_of_mem kv (ih h)

theorem mem_mapDel {α : Type} (m : List (String × α)) (k : String) :
    ∀ kv ∈ mapDel m k, kv ∈ m ∧ kv.1 ≠ k := by
  induction m with
  | nil => intro kv hkv; simp [mapDel] at hkv
  | cons a rest ih =>
      intro kv hkv
      by_cases h1 : a.1 = k
      · rw [mapDel, if_pos h1] at hkv
        have hr := ih kv hkv
        exact ⟨List.mem_cons_of_mem a hr.1, hr.2⟩
      · rw [mapDel, if_neg h1] at hkv
        rcases List.mem_cons.mp hkv with hh | hh
        · refine ⟨by rw [hh]; exact List.mem_cons_self _ _, ?_⟩
          rw [hh]
          exact h1
        · have hr := ih kv hh
          exact ⟨List.mem_cons_of_mem a hr.1, hr.2⟩

theorem executeSwitch_commit (now : Nat) (callId : String) (d : Direction)
    (reason : Option String) (cs : CoordState) (sess : CallSession)
    (h : mapGet cs.sessions callId = some sess)
    (hEnd : sess.status ≠ CallStatus.ENDED) (hm : sess.mode ≠ targetMode d) :
    executeSwitch now callId d reason cs =
      (some (targetMode d, now),
       { sessions := mapSet cs.sessions callId
           { sess with mode := targetMode d, switchCount := sess.switchCount + 1 },
         log := cs.log ++ [⟨callId, d, reason, now⟩] }) := by
  simp [executeSwitch, canSwitch, h, hEnd, hm]

theorem executeSwitch_conflict (now : Nat) (callId : String) (d : Direction)
    (reason : Option String) (cs : CoordState) (sess : CallSession)
    (h : mapGet cs.sessions callId = some sess) (hm : sess.mode = targetMode d) :
    executeSwitch now callId d reason cs = (none, cs) := by
  by_cases hEnd : sess.status = CallStatus.ENDED <;>
    simp [executeSwitch, canSwitch, h, hm, hEnd]

theorem runSwitches_stuck (now : Nat) (callId : String) (d : Direction)
    (reason : Option String) (cs : CoordState) (sess : CallSession)
    (h : mapGet cs.sessions callId = some sess) (hm : sess.mode = targetMode d) :
    ∀ n, runSwitches now callId d reason n cs = (0, cs) := by
  intro n
  induction n with
  | zero => rfl
  | succ k ih =>
      simp [runSwitches, executeSwitch_conflict now callId d reason cs sess h hm, ih]

/-- C1: with the per-call lock serializing `N = m + 1` racing same-direction
requests for one call into consecutive re-validated commits, exactly one
request commits, the final session records the target mode with
`switchCount` increased by exactly 1, and every later identical request is
rejected by `canSwitch` with a conflict (so the other `m` requests returned
no success). -/
theorem switch_mutual_exclusion (cs : CoordState) (now : Nat) (callId : String)
    (d : Direction) (reason : Option String) (sess : CallSession) (m : Nat)
    (h : mapGet cs.sessions callId = some sess)
    (hEnd : sess.status ≠ CallStatus.ENDED) (hm : sess.mode ≠ targetMode d) :
    (runSwitches now callId d reason (m + 1) cs).1 = 1 ∧
    mapGet ((runSwitches now callId d reason (m + 1) cs).2).sessions callId =
      some { sess with mode := targetMode d, switchCount := sess.switchCount + 1 } ∧
    (canSwitch ((runSwitches now callId d reason (m + 1) cs).2) callId d).1 = false := by
  have hstep := executeSwitch_commit now callId d reason cs sess h hEnd hm
  have hget1 : mapGet (mapSet cs.sessions callId
      { sess with mode := targetMode d, switchCount := sess.switchCount + 1 }) callId =
      some { sess with mode := targetMode d, switchCount := sess.switchCount + 1 } :=
    mapGet_set_self cs.sessions callId _
  have hstuck := runSwitches_stuck now callId d reason
    { sessions := mapSet cs.sessions callId
        { sess with mode := targetMode d, switchCount := sess.switchCount + 1 },
      log := cs.log ++ [⟨callId, d, reason, now⟩] }
    { sess with mode := targetMode d, switchCount := sess.switchCount + 1 }
    hget1 rfl m
  have hrun : runSwitches now callId d reason (m + 1) cs =
      (1, { sessions := mapSet cs.sessions callId
              { sess with mode := targetMode d, switchCount := sess.switchCount + 1 },
            log := cs.log ++ [⟨callId, d, reason, now⟩] }) := by
    rw [runSwitches, hstep]
    dsimp only
    rw [hstuck]
    simp
  rw [hrun]
  refine ⟨rfl, hget1, ?_⟩
  by_cases hEs : sess.status = CallStatus.ENDED
  · exact absurd hEs hEnd
  · simp [canSwitch, hget1, hEs]

/-- C1 witness: three racing `AI_TO_HUMAN` requests against the live
`demoSession` commit exactly once. -/
theorem switch_mutual_exclusion_witness :
    (runSwitches 7 "c1" Direction.AI_TO_HUMAN none (2 + 1) demoCoord).1 = 1 :=
  (switch_mutual_exclusion demoCoord 7 "c1" Direction.AI_TO_HUMAN none
    demoSession 2 (by decide) (by decide) (by decide)).1

theorem executeSwitch_invariant (now : Nat) (callId : String) (d : Direction)
    (reason : Option String) (cs : CoordState) (h : SwitchInvariant cs) :
    SwitchInvariant (executeSwitch now callId d reason cs).2 := by
  unfold executeSwitch
  by_cases hc : (canSwitch cs callId d).1 = true
  · rw [if_pos hc]
    rcases hg : mapGet cs.sessions callId with _ | sess
    · exact h
    · dsimp only
      intro kv hkv
      rw [mapSet] at hkv
      rcases List.mem_cons.mp hkv with hkv | hkv
      · subst hkv
        dsimp only
        have hold := h _ (mem_of_mapGet _ _ _ hg)
        rw [logsFor] at hold
        dsimp only at hold
        simp [logsFor, List.filter_append]
        omega
      · have hmd := mem_mapDel _ _ kv hkv
        have hold := h kv hmd.1
        rw [logsFor] at hold
        have hne : ¬ callId = kv.1 := fun hh => hmd.2 hh.symm
        simp [logsFor, List.filter_append, hne]
        omega
  · rw [if_neg hc]
    exact h

theorem applySwitches_invariant (reqs : List SwitchReq) :
    ∀ cs : CoordState, SwitchInvariant cs → SwitchInvariant (applySwitches reqs cs) := by
  induction reqs with
  | nil => exact fun cs h => h
  | cons r rest ih =>
      intro cs h
      exact ih _ (executeSwitch_invariant r.now r.callId r.direction r.reason cs h)

/-- C7: the audit-consistency invariant — every live session's `switchCount`
equals the number of `SwitchLogEntry` rows for its call — is preserved by any
serialized sequence of switch requests, and the `getCallMetrics` read path
reports a `switchCount` that equals both the session counter and the length
of the switch list it returns for the same call. -/
theorem switchCount_audit_consistency (reqs : List SwitchReq) (cs : CoordState)
    (now : Nat) (call : DbCall) (h : SwitchInvariant cs) :
    SwitchInvariant (applySwitches reqs cs) ∧
    (∀ callId sess,
        mapGet (applySwitches reqs cs).sessions callId = some sess →
        (getCallMetrics now call (logsFor (applySwitches reqs cs) callId)).switchCount
          = sess.switchCount) ∧
    (∀ logs : List SwitchLogEntry,
        (getCallMetrics now call logs).switchCount =
          (getCallMetrics now call logs).switches.length) := by
  have hinv := applySwitches_invariant reqs cs h
  refine ⟨hinv, ?_, ?_⟩
  · intro callId sess hget
    have hold := hinv _ (mem_of_mapGet _ _ _ hget)
    simp [getCallMetrics]
    exact hold.symm
  · intro logs
    simp [getCallMetrics]

/-- C7 witness: one committed switch on `demoCoord` keeps the invariant. -/
theorem switchCount_audit_consistency_witness :
    SwitchInvariant (applySwitches [⟨7, "c1", Direction.AI_TO_HUMAN, none⟩] demoCoord) :=
  (switchCount_audit_consistency [⟨7, "c1", Direction.AI_TO_HUMAN, none⟩]
    demoCoord 0 demoCall (by decide)).1
